import Mathlib

/-
  Shallow embedding of `selenium_respectful/respectful_webdriver.py`
  (class `RespectfulWebdriver`).

  The Redis store is modelled explicitly: realm definitions are hashes at
  keys `SeleniumRequester:REALMS:<realm>` (an association list from realm
  name to a two-field hash), the realm index is the set at key
  `SeleniumRequester:REALMS` (a list used with set semantics), and leases
  are the TTL-bound keys `SeleniumRequester:REQUEST:<realm>:<uuid>`
  (a list of records carrying realm, uuid and the TTL passed to SETEX).
  Key-pattern operations (`KEYS`/`SCAN` with pattern
  `SeleniumRequester:REQUEST:<realm>:*`) are modelled as selecting exactly
  the leases whose realm component equals `<realm>`, which is what the glob
  selects for realm names free of `:` and glob metacharacters.
-/

namespace SeleniumRespectful

/-- Python runtime values, as far as this module inspects them:
integers, booleans and strings.  Python `bool` is a subclass of `int`
but a distinct type, so it gets its own constructor. -/
inductive PyVal where
  | int (n : Int)
  | bool (b : Bool)
  | str (s : String)
deriving Repr, DecidableEq

/-- The check `type(v) == int` used by `update_realm`: exact type
equality, so a Python `bool` does not qualify. -/
def PyVal.isExactInt : PyVal → Bool
  | .int _ => true
  | _ => false

/-- The check `isinstance(v, int)` used by `_load_config`: Python `bool`
is a subclass of `int`, so it qualifies here. -/
def PyVal.isInstanceInt : PyVal → Bool
  | .int _ => true
  | .bool _ => true
  | _ => false

/-- Numeric value of a Python value in an `int` context
(`True == 1`, `False == 0`; never reached for strings). -/
def PyVal.toInt : PyVal → Int
  | .int n => n
  | .bool b => if b then 1 else 0
  | .str _ => 0

/-- The exceptions this module can raise:
`SeleniumRespectfulError` (a message), `SeleniumRespectfulRateLimitedError`
(whose message is formatted from the list of rate-limited realms, carried
here directly), and Python's built-in `KeyError` from a dict lookup. -/
inductive PyErr where
  | respectfulError (msg : String)
  | rateLimited (realms : List String)
  | keyError (key : String)
deriving Repr, DecidableEq

/-- The message of a `SeleniumRespectfulRateLimitedError`:
`"Currently rate-limited on Realm(s): %s" % ", ".join(rate_limited_realms)`. -/
def rateLimitedMessage (realms : List String) : String :=
  "Currently rate-limited on Realm(s): " ++ String.intercalate ", " realms

/-- `"Realm '%s' hasn't been registered" % realm`. -/
def realmNotRegisteredMsg (realm : String) : String :=
  "Realm \x27" ++ realm ++ "\x27 hasn\x27t been registered"

/-- Is an exception the rate-limited one (the only class caught by the
`except SeleniumRespectfulRateLimitedError` clause of the wait loop)? -/
def PyErr.isRateLimitedErr : PyErr → Bool
  | .rateLimited _ => true
  | _ => false

/-- The Redis hash at `SeleniumRequester:REALMS:<realm>`.  Each of its two
fields may be absent (`HGETALL` of a missing key yields an empty dict;
`HSET` can create the hash with a single field). -/
structure RealmHash where
  max_requests : Option Int
  timespan : Option Int
deriving Repr, DecidableEq

/-- One lease: the key `SeleniumRequester:REQUEST:<realm>:<uuid>` written
by SETEX, with the TTL passed to it.  Expiry itself is the store's
business and is modelled by the environment dropping leases from the
store between observations. -/
structure Lease where
  realm : String
  uuid : String
  ttl : Int
deriving Repr, DecidableEq

/-- The shared Redis database, restricted to the keys this module touches. -/
structure Store where
  realmHashes : List (String × RealmHash)
  realmIndex : List String
  leases : List Lease
deriving Repr, DecidableEq

/-- Association-list lookup (first binding wins, like a Python dict /
Redis keyspace where keys are unique). -/
def alookup {α : Type} : List (String × α) → String → Option α
  | [], _ => none
  | (k, v) :: rest, key => if k = key then some v else alookup rest key

/-- `HGETALL` on the realm hash: the stored hash, or an empty one when
the key is absent. -/
def hgetall (s : Store) (realm : String) : RealmHash :=
  match alookup s.realmHashes realm with
  | some h => h
  | none => ⟨none, none⟩

/-- Write a whole realm hash (used by `HMSET`): replace the binding if
the key exists, append it otherwise. -/
def setHash (l : List (String × RealmHash)) (realm : String) (h : RealmHash) :
    List (String × RealmHash) :=
  match l with
  | [] => [(realm, h)]
  | (k, v) :: rest =>
      if k = realm then (realm, h) :: rest else (k, v) :: setHash rest realm h

/-- `DEL` on a realm hash key. -/
def delHash (l : List (String × RealmHash)) (realm : String) :
    List (String × RealmHash) :=
  l.filter (fun p => decide (p.1 ≠ realm))

/-- `SADD` on the realm index (no duplicate is added). -/
def sadd (index : List String) (realm : String) : List String :=
  if realm ∈ index then index else index ++ [realm]

/-- `SREM` on the realm index. -/
def srem (index : List String) (realm : String) : List String :=
  index.filter (fun r => decide (r ≠ realm))

/-- `HSET` of a single integer field on a realm hash (creates the hash,
with just that field, when the key is absent). -/
def hsetField (h : RealmHash) (field : String) (v : Int) : RealmHash :=
  if field = "max_requests" then { h with max_requests := some v }
  else if field = "timespan" then { h with timespan := some v }
  else h

/-- `self.redis.hset(redis_key, field, v)`. -/
def hset (s : Store) (realm field : String) (v : Int) : Store :=
  { s with realmHashes := setHash s.realmHashes realm (hsetField (hgetall s realm) field v) }

/-- Does a lease key match the glob `SeleniumRequester:REQUEST:<realm>:*`? -/
def leaseMatchesRealm (realm : String) (l : Lease) : Bool :=
  decide (l.realm = realm)

/-- `register_realm(realm, max_requests, timespan)`: guarded by
`HEXISTS(key, "max_requests")`; when absent, `HMSET` both fields and
`SADD` the realm into the index; returns `True` either way. -/
def register_realm (s : Store) (realm : String) (max_requests timespan : Int) :
    Store × Bool :=
  if ((hgetall s realm).max_requests).isSome then (s, true)
  else
    ({ realmHashes := setHash s.realmHashes realm ⟨some max_requests, some timespan⟩,
       realmIndex := sadd s.realmIndex realm,
       leases := s.leases }, true)

/-- The loop body of `update_realm`: `if updatable_key in kwargs and
type(kwargs[updatable_key]) == int: HSET(key, updatable_key, value)`. -/
def updateStep (realm : String) (kwargs : List (String × PyVal))
    (st : Store) (key : String) : Store :=
  match alookup kwargs key with
  | some v => if v.isExactInt then hset st realm key v.toInt else st
  | none => st

/-- `update_realm(realm, **kwargs)`: for each key in
`["max_requests", "timespan"]`, if it is in `kwargs` and
`type(kwargs[key]) == int`, `HSET` the field; returns `True`. -/
def update_realm (s : Store) (realm : String) (kwargs : List (String × PyVal)) :
    Store × Bool :=
  (["max_requests", "timespan"].foldl (updateStep realm kwargs) s, true)

/-- `unregister_realm(realm)`: `DEL` the realm hash, `SREM` the index
entry, `DEL` every key matching `SeleniumRequester:REQUEST:<realm>:*`;
returns `True`. -/
def unregister_realm (s : Store) (realm : String) : Store × Bool :=
  ({ realmHashes := delHash s.realmHashes realm,
     realmIndex := srem s.realmIndex realm,
     leases := s.leases.filter (fun l => ! leaseMatchesRealm realm l) }, true)

/-- `fetch_registered_realms()`: `SMEMBERS` of the index, decoded. -/
def fetch_registered_realms (s : Store) : List String :=
  s.realmIndex

/-- `_fetch_realm_info(realm)`: `HGETALL` of the realm hash. -/
def _fetch_realm_info (s : Store) (realm : String) : RealmHash :=
  hgetall s realm

/-- `realm_max_requests(realm)`:
`int(realm_info[b"max_requests"].decode())`.  The dict lookup raises
`KeyError` when the field is absent (in particular for an unregistered
realm, where `HGETALL` returned an empty dict).  Stored values are
integers, so `int(...)` itself never fails. -/
def realm_max_requests (s : Store) (realm : String) : Except PyErr Int :=
  match (_fetch_realm_info s realm).max_requests with
  | some v => .ok v
  | none => .error (.keyError "max_requests")

/-- `realm_timespan(realm)`: same shape as `realm_max_requests`. -/
def realm_timespan (s : Store) (realm : String) : Except PyErr Int :=
  match (_fetch_realm_info s realm).timespan with
  | some v => .ok v
  | none => .error (.keyError "timespan")

/-- `_requests_in_timespan(realm)`: the number of keys matching
`SeleniumRequester:REQUEST:<realm>:*`.  The source issues a single SCAN
with `count` at least the whole keyspace, modelled as an exact count. -/
def _requests_in_timespan (s : Store) (realm : String) : Nat :=
  (s.leases.filter (leaseMatchesRealm realm)).length

/-- The `redis` section of the effective configuration. -/
structure RedisConfig where
  host : String
  port : Int
  database : Int
deriving Repr, DecidableEq

/-- The effective configuration held in `self.config`. -/
structure Config where
  redis : RedisConfig
  safety_threshold : Int
deriving Repr, DecidableEq

/-- The class attribute `default_config`. -/
def default_config : Config :=
  ⟨⟨"localhost", 6379, 0⟩, 0⟩

/-- `_can_perform_get(realm)`:
`_requests_in_timespan(realm) < realm_max_requests(realm) - safety_threshold`
(`realm_max_requests` may raise, which propagates). -/
def _can_perform_get (cfg : Config) (s : Store) (realm : String) :
    Except PyErr Bool :=
  match realm_max_requests s realm with
  | .error e => .error e
  | .ok m => .ok (decide ((_requests_in_timespan s realm : Int) < m - cfg.safety_threshold))

/-- `a.startswith(b)` on Python strings, by structural recursion over
the character lists. -/
def charsStart : List Char → List Char → Bool
  | [], _ => true
  | _ :: _, [] => false
  | c :: cs, d :: ds => c == d && charsStart cs ds

/-- `s.startswith(pre)`. -/
def strStartsWith (s pre : String) : Bool :=
  charsStart pre.data s.data

/-- The `get_func` argument of `_perform_webdriver_get`: whether it is a
lambda, the stripped source text after the colon of the lambda, and the
outcome of invoking it (the actuator may itself raise). -/
structure GetFunc (α : Type) where
  isLambda : Bool
  bodySource : String
  run : Except PyErr α

/-- `_validate_get_func(get_func)`: must be a lambda whose body source
starts with `self.webdriver.get`. -/
def _validate_get_func {α : Type} (g : GetFunc α) : Except PyErr Unit :=
  if ! g.isLambda then
    .error (.respectfulError "\x27get_func\x27 is expected to be a lambda")
  else if ! (strStartsWith g.bodySource "self.webdriver.get") then
    .error (.respectfulError "The lambda can only contain a self.webdriver.get function call")
  else .ok ()

/-- The loop of `_perform_webdriver_get` building `rate_limited_realms`,
in realm order; a raise from `_can_perform_get` aborts the whole call. -/
def rateLimitedRealms (cfg : Config) (s : Store) :
    List String → Except PyErr (List String)
  | [] => .ok []
  | r :: rs =>
      match _can_perform_get cfg s r with
      | .error e => .error e
      | .ok b =>
          match rateLimitedRealms cfg s rs with
          | .error e => .error e
          | .ok rest => .ok (if b then rest else r :: rest)

/-- `SETEX` of one lease key: overwrites a key with the same
realm and uuid if present, creating the key otherwise. -/
def setex (s : Store) (l : Lease) : Store :=
  { s with leases :=
      s.leases.filter (fun x => decide (¬ (x.realm = l.realm ∧ x.uuid = l.uuid))) ++ [l] }

/-- The lease-issuing loop of the granted branch:
`for realm in realms: SETEX(key(realm, uuid), realm_timespan(realm), uuid)`.
`uuidGen i` is the `str(uuid.uuid4())` drawn at iteration `i`; a raise
from `realm_timespan` aborts the loop, keeping earlier leases. -/
def issueLeases (uuidGen : Nat → String) :
    Store → Nat → List String → Store × Option PyErr
  | s, _, [] => (s, none)
  | s, i, r :: rs =>
      match realm_timespan s r with
      | .error e => (s, some e)
      | .ok ts => issueLeases uuidGen (setex s ⟨r, uuidGen i, ts⟩) (i + 1) rs

/-- `_perform_webdriver_get(get_func, realms)`.  Returns the store after
the call, the result (or raised exception), and the number of times
`get_func` was invoked. -/
def _perform_webdriver_get {α : Type} (cfg : Config) (uuidGen : Nat → String)
    (g : GetFunc α) (s : Store) (realms : List String) :
    Store × Except PyErr α × Nat :=
  match _validate_get_func g with
  | .error e => (s, .error e, 0)
  | .ok _ =>
      match rateLimitedRealms cfg s realms with
      | .error e => (s, .error e, 0)
      | .ok rl =>
          if rl.length = 0 then
            match issueLeases uuidGen s 0 realms with
            | (s1, some e) => (s1, .error e, 0)
            | (s1, none) => (s1, g.run, 1)
          else (s, .error (.rateLimited rl), 0)

/-- The realm-validation loop at the top of `_webdriver_get`: the first
realm not in `registered_realms`, if any (the loop raises there). -/
def firstUnregistered (registered : List String) : List String → Option String
  | [] => none
  | r :: rs => if r ∈ registered then firstUnregistered registered rs else some r

/-- Is a result the rate-limited exception (caught by the wait loop)? -/
def resIsRateLimited {α : Type} : Except PyErr α → Bool
  | .error e => e.isRateLimitedErr
  | .ok _ => false

/-- The `while True` wait loop of `_webdriver_get`.  `stores i` is the
store observed at attempt `i` (it evolves between attempts through TTL
expiry and other processes), `fuel` bounds how many attempts we observe
(`none` = still looping after `fuel` attempts), and `slept` accumulates
the `time.sleep(1)` calls executed so far, one after each absorbed
rate-limited denial. -/
def waitLoop {α : Type} (cfg : Config) (uuidGen : Nat → String) (g : GetFunc α)
    (realms : List String) (stores : Nat → Store) :
    Nat → Nat → Nat → Option (Store × Except PyErr α × Nat × Nat)
  | 0, _, _ => none
  | fuel + 1, i, slept =>
      let out := _perform_webdriver_get cfg uuidGen g (stores i) realms
      if resIsRateLimited out.2.1 then
        waitLoop cfg uuidGen g realms stores fuel (i + 1) (slept + 1)
      else some (out.1, out.2.1, out.2.2, slept)

/-- `_webdriver_get(get_func, realms, wait)`: validate that every realm
is registered (against the store observed at call time), then either a
single `_perform_webdriver_get` or the wait loop.  The result carries
the final store, the result or raised exception, the number of actuator
invocations, and the number of one-second sleeps performed. -/
def _webdriver_get {α : Type} (cfg : Config) (uuidGen : Nat → String)
    (g : GetFunc α) (realms : List String) (wait : Bool)
    (stores : Nat → Store) (fuel : Nat) :
    Option (Store × Except PyErr α × Nat × Nat) :=
  match firstUnregistered (fetch_registered_realms (stores 0)) realms with
  | some realm =>
      some (stores 0, .error (.respectfulError (realmNotRegisteredMsg realm)), 0, 0)
  | none =>
      if wait then waitLoop cfg uuidGen g realms stores fuel 0 0
      else
        let out := _perform_webdriver_get cfg uuidGen g (stores 0) realms
        some (out.1, out.2.1, out.2.2, 0)

/-- The `redis` section of the YAML configuration file, each key
possibly absent (values are not type-checked by the source). -/
structure RedisSection where
  host : Option PyVal
  port : Option PyVal
  database : Option PyVal
deriving Repr, DecidableEq

/-- The parsed YAML configuration file. -/
structure ConfigFile where
  safety_threshold : Option PyVal
  redis : Option RedisSection
deriving Repr, DecidableEq

/-- What `_load_config` does: raise a `SeleniumRespectfulError`, or
return a Python value — `some` a config dict, or `none` for Python
`None`. -/
inductive LoadResult where
  | raised (msg : String)
  | returned (c : Option Config)
deriving Repr, DecidableEq

/-- The `missing_redis_keys` list built by `_load_config`, in the order
`host`, `port`, `database`. -/
def missingRedisKeys (r : RedisSection) : List String :=
  (if r.host.isSome then [] else ["host"]) ++
  (if r.port.isSome then [] else ["port"]) ++
  (if r.database.isSome then [] else ["database"])

/-- `_load_config()`.  `file` is the parsed configuration file, `none`
when opening it raises `FileNotFoundError` (the only caught exception,
answered with a deep copy of `default_config`).  When the file exists
and validates, the function body ends without a `return` statement, so
Python returns `None`: modelled as `.returned none`. -/
def _load_config (file : Option ConfigFile) : LoadResult :=
  match file with
  | none => .returned (some default_config)
  | some cf =>
      let stBad : Bool :=
        match cf.safety_threshold with
        | some v => (! v.isInstanceInt) || decide (v.toInt < 0)
        | none => false
      if stBad then
        .raised "\x27safety_threshold\x27 key must be a positive integer in \x27selenium-respectful.config.yml\x27"
      else
        match cf.redis with
        | none => .raised "\x27redis\x27 key is missing from \x27selenium-respectful.config.yml\x27"
        | some r =>
            if (missingRedisKeys r).length ≠ 0 then
              .raised ("\x27" ++ String.intercalate ", " (missingRedisKeys r) ++
                "\x27 " ++ (if (missingRedisKeys r).length = 1 then "is" else "are") ++
                " missing from the \x27redis\x27 configuration key in \x27selenium-respectful.config.yml\x27")
            else .returned none

/-- Well-formedness of a store as produced by the registry API: a realm
name in the index has a hash holding both fields, and a name outside the
index has an empty hash. -/
def WF (s : Store) : Prop :=
  ∀ realm : String,
    (realm ∈ s.realmIndex → ∃ m t, hgetall s realm = ⟨some m, some t⟩) ∧
    (realm ∉ s.realmIndex → hgetall s realm = ⟨none, none⟩)

/-- The leases the granted branch of `_perform_webdriver_get` writes,
one per realm in order: realm `realms[j]` gets uuid `uuidGen (i + j)` and
the TTL read from that realm's hash. -/
def plannedFrom (s : Store) (uuidGen : Nat → String) :
    Nat → List String → List Lease
  | _, [] => []
  | i, r :: rs =>
      ⟨r, uuidGen i, ((hgetall s r).timespan).getD 0⟩ :: plannedFrom s uuidGen (i + 1) rs

/-- A realm `_can_perform_get` answers `False` for, i.e. one the denial
branch of `_perform_webdriver_get` collects into `rate_limited_realms`. -/
def isSaturated (cfg : Config) (s : Store) (realm : String) : Bool :=
  match _can_perform_get cfg s realm with
  | .ok b => ! b
  | .error _ => false

/-- The field value stored after `updateStep` for a recognized key:
overwritten when the supplied value has exact type `int`, kept otherwise. -/
def appliedField (o : Option PyVal) (old : Option Int) : Option Int :=
  match o with
  | some v => if v.isExactInt then some v.toInt else old
  | none => old

/-- Concrete fixture: a store with one registered realm `A`
(`max_requests = 2`, `timespan = 5`) and no leases. -/
def storeA : Store := ⟨[("A", ⟨some 2, some 5⟩)], ["A"], []⟩

/-- Concrete fixture: realm `A` registered with `max_requests = 0`,
so admission on `A` is always denied. -/
def storeSat : Store := ⟨[("A", ⟨some 0, some 5⟩)], ["A"], []⟩

/-- Concrete fixture: the empty store. -/
def emptyStore : Store := ⟨[], [], []⟩

/-- Concrete fixture: a valid `get_func` whose invocation yields `7`. -/
def gOK : GetFunc Nat := ⟨true, "self.webdriver.get(url)", .ok 7⟩

/-- Concrete fixture: a stream of distinct uuids. -/
def uuidgen0 : Nat → String := fun i => "u" ++ toString i

/-- Concrete fixture: the environment always presents `storeA`. -/
def constStoresA : Nat → Store := fun _ => storeA

/-- Concrete fixture: the environment always presents `storeSat`. -/
def constStoresSat : Nat → Store := fun _ => storeSat

/-- Concrete fixture: an update payload with one integer field, one
string-valued recognized field and one unknown field. -/
def kwargsMixed : List (String × PyVal) :=
  [("max_requests", .int 42), ("timespan", .str "BAR"), ("fake", .bool true)]

/-- Concrete fixture: an update payload supplying a boolean for
`max_requests`. -/
def kwargsBool : List (String × PyVal) := [("max_requests", .bool true)]

/-- A filter that keeps every element is the identity. -/
theorem filter_all_true {α : Type} (p : α → Bool) :
    ∀ l : List α, (∀ a ∈ l, p a = true) → l.filter p = l := by
  intro l h
  induction l with
  | nil => rfl
  | cons a as ih =>
    have ha := h a (by simp)
    simp only [List.filter_cons, ha, if_true]
    rw [ih (fun b hb => h b (by simp [hb]))]

/-- Looking up the key just written by `setHash` yields the new hash. -/
theorem alookup_setHash_self (l : List (String × RealmHash)) (k : String) (h : RealmHash) :
    alookup (setHash l k h) k = some h := by
  induction l with
  | nil => simp [setHash, alookup]
  | cons p rest ih =>
    obtain ⟨k1, v1⟩ := p
    by_cases hp : k1 = k
    · simp [setHash, hp, alookup]
    · simp [setHash, hp, alookup, ih]

/-- `setHash` leaves every other key's binding alone. -/
theorem alookup_setHash_ne (l : List (String × RealmHash)) (k : String) (h : RealmHash)
    (r : String) (hr : r ≠ k) :
    alookup (setHash l k h) r = alookup l r := by
  induction l with
  | nil => simp [setHash, alookup, Ne.symm hr]
  | cons p rest ih =>
    obtain ⟨k1, v1⟩ := p
    by_cases hp : k1 = k
    · subst hp
      simp [setHash, alookup, Ne.symm hr]
    · simp [setHash, hp, alookup, ih]

/-- A key deleted by `delHash` has no binding left. -/
theorem alookup_delHash (l : List (String × RealmHash)) (k : String) :
    alookup (delHash l k) k = none := by
  induction l with
  | nil => rfl
  | cons p rest ih =>
    obtain ⟨k1, v1⟩ := p
    by_cases hp : k1 = k
    · simpa [delHash, hp] using ih
    · simpa [delHash, hp, alookup] using ih

/-- An absent key means no binding carries it. -/
theorem alookup_none_forall {α : Type} (l : List (String × α)) (k : String) :
    alookup l k = none → ∀ p ∈ l, p.1 ≠ k := by
  induction l with
  | nil => intro _ p hp; simp at hp
  | cons q rest ih =>
    obtain ⟨k1, v1⟩ := q
    intro h p hp
    by_cases hk : k1 = k
    · simp [alookup, hk] at h
    · rcases List.mem_cons.mp hp with hp | hp
      · subst hp; exact hk
      · exact ih (by simpa [alookup, hk] using h) p hp

/-- `SETEX` does not touch the realm hashes. -/
theorem hgetall_setex (s : Store) (l : Lease) (r : String) :
    hgetall (setex s l) r = hgetall s r := rfl

/-- `HSET` then `HGETALL` on the same realm shows the updated hash. -/
theorem hgetall_hset_self (st : Store) (realm key : String) (v : Int) :
    hgetall (hset st realm key v) realm = hsetField (hgetall st realm) key v := by
  simp [hgetall, hset, alookup_setHash_self]

/-- `HSET` on one realm leaves every other realm's hash alone. -/
theorem hgetall_hset_ne (st : Store) (realm key : String) (v : Int)
    (r : String) (hr : r ≠ realm) :
    hgetall (hset st realm key v) r = hgetall st r := by
  simp [hgetall, hset, alookup_setHash_ne _ _ _ _ hr]

/-- `plannedFrom` only reads the realm hashes, so two stores with the
same hashes plan the same leases. -/
theorem plannedFrom_congr (s1 s2 : Store) (uuidGen : Nat → String)
    (h : ∀ r, hgetall s1 r = hgetall s2 r) :
    ∀ (i : Nat) (realms : List String),
      plannedFrom s1 uuidGen i realms = plannedFrom s2 uuidGen i realms := by
  intro i realms
  induction realms generalizing i with
  | nil => rfl
  | cons r rs ih => simp [plannedFrom, h r, ih]

/-- The planned leases list one lease per requested realm, in order. -/
theorem plannedFrom_map_realm (s : Store) (uuidGen : Nat → String) :
    ∀ (i : Nat) (realms : List String),
      (plannedFrom s uuidGen i realms).map Lease.realm = realms := by
  intro i realms
  induction realms generalizing i with
  | nil => rfl
  | cons r rs ih => simp [plannedFrom, ih]

/-- Each planned lease carries the TTL its realm's `realm_timespan`
returns. -/
theorem plannedFrom_ttl (s : Store) (uuidGen : Nat → String) :
    ∀ (i : Nat) (realms : List String),
      (∀ r ∈ realms, ((hgetall s r).timespan).isSome = true) →
      ∀ l ∈ plannedFrom s uuidGen i realms, realm_timespan s l.realm = .ok l.ttl := by
  intro i realms
  induction realms generalizing i with
  | nil => intro _ l hl; simp [plannedFrom] at hl
  | cons r rs ih =>
    intro h l hl
    simp only [plannedFrom, List.mem_cons] at hl
    rcases hl with hl | hl
    · subst hl
      obtain ⟨t, ht⟩ := Option.isSome_iff_exists.mp (h r (by simp))
      simp [realm_timespan, _fetch_realm_info, ht]
    · exact ih (i + 1) (fun r' hr' => h r' (by simp [hr'])) l hl

/-- The lease-issuing loop of the granted branch: when every requested
realm's hash holds a `timespan` and the drawn uuids are fresh and
pairwise distinct, the loop appends exactly the planned leases and does
not raise. -/
theorem issueLeases_spec (uuidGen : Nat → String) :
    ∀ (realms : List String) (s : Store) (i : Nat),
      (∀ r ∈ realms, ((hgetall s r).timespan).isSome = true) →
      (∀ j, i ≤ j → j < i + realms.length → ∀ l ∈ s.leases, l.uuid ≠ uuidGen j) →
      (∀ j k, i ≤ j → j < i + realms.length → i ≤ k → k < i + realms.length →
        uuidGen j = uuidGen k → j = k) →
      issueLeases uuidGen s i realms =
        ({ s with leases := s.leases ++ plannedFrom s uuidGen i realms }, none) := by
  intro realms
  induction realms with
  | nil =>
    intro s i _ _ _
    simp [issueLeases, plannedFrom]
  | cons r rs ih =>
    intro s i hts hfresh hinj
    obtain ⟨t, ht⟩ := Option.isSome_iff_exists.mp (hts r (by simp))
    have hTs : realm_timespan s r = .ok t := by
      simp [realm_timespan, _fetch_realm_info, ht]
    have hkeep : s.leases.filter
        (fun x => decide (¬ (x.realm = r ∧ x.uuid = uuidGen i))) = s.leases := by
      apply filter_all_true
      intro a ha
      have := hfresh i (le_refl i) (by simp) a ha
      simp [this]
    have h1 : ∀ r' ∈ rs,
        ((hgetall (setex s ⟨r, uuidGen i, t⟩) r').timespan).isSome = true := by
      intro r' hr'
      rw [hgetall_setex]
      exact hts r' (by simp [hr'])
    have h2 : ∀ j, i + 1 ≤ j → j < (i + 1) + rs.length →
        ∀ l ∈ (setex s ⟨r, uuidGen i, t⟩).leases, l.uuid ≠ uuidGen j := by
      intro j hj1 hj2 l hl
      simp only [setex, List.mem_append, List.mem_filter, List.mem_singleton] at hl
      rcases hl with ⟨hl, _⟩ | hl
      · exact hfresh j (by omega) (by simp; omega) l hl
      · subst hl
        intro heq
        have := hinj i j (le_refl i) (by simp) (by omega) (by simp; omega) heq
        omega
    have h3 : ∀ j k, i + 1 ≤ j → j < (i + 1) + rs.length → i + 1 ≤ k →
        k < (i + 1) + rs.length → uuidGen j = uuidGen k → j = k := by
      intro j k hj1 hj2 hk1 hk2 he
      exact hinj j k (by omega) (by simp; omega) (by omega) (by simp; omega) he
    have hstep : issueLeases uuidGen s i (r :: rs) =
        issueLeases uuidGen (setex s ⟨r, uuidGen i, t⟩) (i + 1) rs := by
      simp [issueLeases, hTs]
    have hpc : plannedFrom (setex s ⟨r, uuidGen i, t⟩) uuidGen (i + 1) rs =
        plannedFrom s uuidGen (i + 1) rs :=
      plannedFrom_congr _ _ uuidGen (fun r' => hgetall_setex s ⟨r, uuidGen i, t⟩ r') (i + 1) rs
    have hleases : (setex s ⟨r, uuidGen i, t⟩).leases = s.leases ++ [⟨r, uuidGen i, t⟩] := by
      show s.leases.filter (fun x => decide (¬ (x.realm = r ∧ x.uuid = uuidGen i))) ++
          [⟨r, uuidGen i, t⟩] = s.leases ++ [⟨r, uuidGen i, t⟩]
      rw [hkeep]
    have hrh : (setex s ⟨r, uuidGen i, t⟩).realmHashes = s.realmHashes := rfl
    have hri : (setex s ⟨r, uuidGen i, t⟩).realmIndex = s.realmIndex := rfl
    rw [hstep, ih (setex s ⟨r, uuidGen i, t⟩) (i + 1) h1 h2 h3, hpc]
    simp [Prod.mk.injEq, Store.mk.injEq, hrh, hri, hleases, plannedFrom, ht,
      List.append_assoc]

/-- When every requested realm has headroom, the denial list is empty. -/
theorem rateLimitedRealms_all_ok (cfg : Config) (s : Store) :
    ∀ realms : List String,
      (∀ r ∈ realms, _can_perform_get cfg s r = .ok true) →
      rateLimitedRealms cfg s realms = .ok [] := by
  intro realms h
  induction realms with
  | nil => rfl
  | cons r rs ih =>
    have hr := h r (by simp)
    have hrest := ih (fun r' hr' => h r' (by simp [hr']))
    simp [rateLimitedRealms, hr, hrest]

/-- When every requested realm is readable, the loop of
`_perform_webdriver_get` collects exactly the saturated realms, in
request order. -/
theorem rateLimitedRealms_filter (cfg : Config) (s : Store) :
    ∀ realms : List String,
      (∀ r ∈ realms, ∃ b, _can_perform_get cfg s r = .ok b) →
      rateLimitedRealms cfg s realms = .ok (realms.filter (isSaturated cfg s)) := by
  intro realms h
  induction realms with
  | nil => rfl
  | cons r rs ih =>
    obtain ⟨b, hb⟩ := h r (by simp)
    have hsat : isSaturated cfg s r = ! b := by simp [isSaturated, hb]
    have hrest := ih (fun r' hr' => h r' (by simp [hr']))
    cases b <;> simp [rateLimitedRealms, hb, hrest, List.filter_cons, hsat]

/-- If some requested realm is unregistered, the validation loop stops at
the first such realm. -/
theorem firstUnregistered_of_mem (registered : List String) :
    ∀ (realms : List String) (r : String), r ∈ realms → r ∉ registered →
      ∃ r0, firstUnregistered registered realms = some r0 ∧
        r0 ∈ realms ∧ r0 ∉ registered := by
  intro realms
  induction realms with
  | nil => intro r hr; simp at hr
  | cons r1 rs ih =>
    intro r hr hur
    by_cases h1 : r1 ∈ registered
    · have hr' : r ∈ rs := by
        rcases List.mem_cons.mp hr with h | h
        · subst h; exact absurd h1 hur
        · exact h
      obtain ⟨r0, h0, h0m, h0n⟩ := ih r hr' hur
      exact ⟨r0, by simp [firstUnregistered, h1, h0], by simp [h0m], h0n⟩
    · exact ⟨r1, by simp [firstUnregistered, h1], by simp, h1⟩

/-- An update step whose key gets no exact-`int` value is a no-op. -/
theorem updateStep_noop (realm : String) (kwargs : List (String × PyVal))
    (st : Store) (key : String)
    (h : ∀ v, alookup kwargs key = some v → v.isExactInt = false) :
    updateStep realm kwargs st key = st := by
  unfold updateStep
  cases hk : alookup kwargs key with
  | none => rfl
  | some v => simp [h v hk]

/-- An update step never touches the realm index. -/
theorem updateStep_index (realm : String) (kwargs : List (String × PyVal))
    (st : Store) (key : String) :
    (updateStep realm kwargs st key).realmIndex = st.realmIndex := by
  unfold updateStep
  cases alookup kwargs key with
  | none => rfl
  | some v =>
    by_cases hv : v.isExactInt = true <;> simp [hv, hset]

/-- An update step never touches the leases. -/
theorem updateStep_leases (realm : String) (kwargs : List (String × PyVal))
    (st : Store) (key : String) :
    (updateStep realm kwargs st key).leases = st.leases := by
  unfold updateStep
  cases alookup kwargs key with
  | none => rfl
  | some v =>
    by_cases hv : v.isExactInt = true <;> simp [hv, hset]

/-- An update step never touches another realm's hash. -/
theorem updateStep_hash_ne (realm : String) (kwargs : List (String × PyVal))
    (st : Store) (key : String) (r : String) (hr : r ≠ realm) :
    hgetall (updateStep realm kwargs st key) r = hgetall st r := by
  unfold updateStep
  cases alookup kwargs key with
  | none => rfl
  | some v =>
    by_cases hv : v.isExactInt = true <;> simp [hv, hgetall_hset_ne _ _ _ _ _ hr]

/-- The `max_requests` step rewrites exactly that field of the realm's
hash, by `appliedField`. -/
theorem updateStep_max_hash (realm : String) (kwargs : List (String × PyVal))
    (st : Store) :
    hgetall (updateStep realm kwargs st "max_requests") realm =
      ⟨appliedField (alookup kwargs "max_requests") (hgetall st realm).max_requests,
       (hgetall st realm).timespan⟩ := by
  unfold updateStep appliedField
  cases alookup kwargs "max_requests" with
  | none => rfl
  | some v =>
    by_cases hv : v.isExactInt = true
    · simp [hv, hgetall_hset_self, hsetField]
    · simp [hv]

/-- The `timespan` step rewrites exactly that field of the realm's hash,
by `appliedField`. -/
theorem updateStep_ts_hash (realm : String) (kwargs : List (String × PyVal))
    (st : Store) :
    hgetall (updateStep realm kwargs st "timespan") realm =
      ⟨(hgetall st realm).max_requests,
       appliedField (alookup kwargs "timespan") (hgetall st realm).timespan⟩ := by
  unfold updateStep appliedField
  cases alookup kwargs "timespan" with
  | none => rfl
  | some v =>
    by_cases hv : v.isExactInt = true
    · simp [hv, hgetall_hset_self, hsetField]
    · simp [hv]

/-- The empty store is well-formed. -/
theorem WF_emptyStore : WF emptyStore := by
  intro realm
  refine ⟨fun h => ?_, fun _ => rfl⟩
  simp [emptyStore] at h

/-- `storeA` is well-formed. -/
theorem WF_storeA : WF storeA := by
  intro realm
  constructor
  · intro h
    simp [storeA] at h
    subst h
    exact ⟨2, 5, rfl⟩
  · intro h
    simp [storeA] at h
    have hne : ("A" : String) ≠ realm := fun he => h he.symm
    simp [hgetall, alookup, storeA, hne]

/-- `storeSat` is well-formed. -/
theorem WF_storeSat : WF storeSat := by
  intro realm
  constructor
  · intro h
    simp [storeSat] at h
    subst h
    exact ⟨0, 5, rfl⟩
  · intro h
    simp [storeSat] at h
    have hne : ("A" : String) ≠ realm := fun he => h he.symm
    simp [hgetall, alookup, storeSat, hne]

/-- C1: when the `get_func` is valid and every requested realm satisfies
`active_count(realm) < max_requests(realm) - safety_threshold`
(headroom > 0, with the realm's `timespan` readable and the drawn uuids
fresh and pairwise distinct), the admission is granted: exactly one
lease is appended per requested realm — one per realm in request order,
each with a fresh unique identifier and a TTL equal to that realm's own
`timespan` — the actuator runs exactly once and its result is returned. -/
theorem granted_admission_issues_one_lease_per_realm_and_runs_actuator
    {α : Type} (cfg : Config) (uuidGen : Nat → String) (g : GetFunc α)
    (s : Store) (realms : List String)
    (hval : _validate_get_func g = .ok ())
    (hcan : ∀ r ∈ realms, ∃ m, realm_max_requests s r = .ok m ∧
      (_requests_in_timespan s r : Int) < m - cfg.safety_threshold)
    (hts : ∀ r ∈ realms, ((hgetall s r).timespan).isSome = true)
    (hfresh : ∀ j, j < realms.length → ∀ l ∈ s.leases, l.uuid ≠ uuidGen j)
    (hinj : ∀ j k, j < realms.length → k < realms.length →
      uuidGen j = uuidGen k → j = k) :
    _perform_webdriver_get cfg uuidGen g s realms =
      ({ s with leases := s.leases ++ plannedFrom s uuidGen 0 realms }, g.run, 1) ∧
    (plannedFrom s uuidGen 0 realms).map Lease.realm = realms ∧
    (∀ l ∈ plannedFrom s uuidGen 0 realms, realm_timespan s l.realm = .ok l.ttl) := by
  have hcanT : ∀ r ∈ realms, _can_perform_get cfg s r = .ok true := by
    intro r hr
    obtain ⟨m, hm, hlt⟩ := hcan r hr
    simp [_can_perform_get, hm, hlt]
  have hrl := rateLimitedRealms_all_ok cfg s realms hcanT
  have hil := issueLeases_spec uuidGen realms s 0 hts
    (fun j _ hj l hl => hfresh j (by omega) l hl)
    (fun j k _ hj _ hk he => hinj j k (by omega) (by omega) he)
  refine ⟨?_, plannedFrom_map_realm s uuidGen 0 realms,
    plannedFrom_ttl s uuidGen 0 realms hts⟩
  simp [_perform_webdriver_get, hval, hrl, hil]

/-- C1 witness: a concrete granted admission on `storeA`. -/
theorem granted_admission_witness :
    _perform_webdriver_get default_config uuidgen0 gOK storeA ["A"] =
      ({ storeA with leases := storeA.leases ++ plannedFrom storeA uuidgen0 0 ["A"] },
        Except.ok 7, 1) :=
  (granted_admission_issues_one_lease_per_realm_and_runs_actuator
    default_config uuidgen0 gOK storeA ["A"]
    rfl
    (by
      intro r hr
      simp only [List.mem_singleton] at hr
      subst hr
      exact ⟨2, rfl, by decide⟩)
    (by
      intro r hr
      simp only [List.mem_singleton] at hr
      subst hr
      rfl)
    (by
      intro j _ l hl
      simp [storeA] at hl)
    (by
      intro j k hj hk _
      simp only [List.length_singleton] at hj hk
      omega)).1

/-- C2: when the `get_func` is valid, every requested realm is readable,
and at least one is saturated, the admission is denied all-or-nothing:
the store is unchanged (no lease for any realm, saturated or not), the
actuator is not invoked, and the raised rate-limited error carries
exactly the saturated realms; saturation is exactly
`max_requests - safety_threshold ≤ active_count`. -/
theorem denied_admission_is_all_or_nothing
    {α : Type} (cfg : Config) (uuidGen : Nat → String) (g : GetFunc α)
    (s : Store) (realms : List String)
    (hval : _validate_get_func g = .ok ())
    (hreg : ∀ r ∈ realms, ∃ b, _can_perform_get cfg s r = .ok b)
    (hsat : ∃ r, r ∈ realms ∧ isSaturated cfg s r = true) :
    _perform_webdriver_get cfg uuidGen g s realms =
      (s, .error (.rateLimited (realms.filter (isSaturated cfg s))), 0) ∧
    (∀ r ∈ realms, (isSaturated cfg s r = true ↔
      ∃ m, realm_max_requests s r = .ok m ∧
        m - cfg.safety_threshold ≤ (_requests_in_timespan s r : Int))) := by
  have hrl := rateLimitedRealms_filter cfg s realms hreg
  have hne : ¬ (realms.filter (isSaturated cfg s)).length = 0 := by
    obtain ⟨r, hrm, hrs⟩ := hsat
    have hmem : r ∈ realms.filter (isSaturated cfg s) := List.mem_filter.mpr ⟨hrm, hrs⟩
    intro hlen
    rw [List.length_eq_zero] at hlen
    simp [hlen] at hmem
  constructor
  · simp [_perform_webdriver_get, hval, hrl, hne]
  · intro r hr
    obtain ⟨b, hb⟩ := hreg r hr
    cases hmr : realm_max_requests s r with
    | error e => simp [_can_perform_get, hmr] at hb
    | ok m =>
      constructor
      · intro hsatr
        refine ⟨m, rfl, ?_⟩
        simp [isSaturated, _can_perform_get, hmr] at hsatr
        omega
      · intro hex
        obtain ⟨m', hm', hle⟩ := hex
        injection hm' with hmm
        subst hmm
        simp [isSaturated, _can_perform_get, hmr]
        omega

/-- C2 witness: a concrete denied admission on `storeSat`. -/
theorem denied_admission_witness :
    _perform_webdriver_get default_config uuidgen0 gOK storeSat ["A"] =
      (storeSat,
        .error (.rateLimited (["A"].filter (isSaturated default_config storeSat))), 0) :=
  (denied_admission_is_all_or_nothing default_config uuidgen0 gOK storeSat ["A"]
    rfl
    (by
      intro r hr
      simp only [List.mem_singleton] at hr
      subst hr
      exact ⟨false, rfl⟩)
    ⟨"A", by simp, rfl⟩).1

/-- C3: registering a name already in the registry is a no-op that still
returns `True` — the stored values and the index are untouched — while
registering an absent name stores both fields, appends the name to the
index, and touches nothing else. -/
theorem register_is_noop_when_present_and_inserts_when_absent
    (s : Store) (realm : String) (m t : Int) (hwf : WF s) :
    (realm ∈ s.realmIndex → register_realm s realm m t = (s, true)) ∧
    (realm ∉ s.realmIndex →
      (register_realm s realm m t).2 = true ∧
      hgetall (register_realm s realm m t).1 realm = ⟨some m, some t⟩ ∧
      (register_realm s realm m t).1.realmIndex = s.realmIndex ++ [realm] ∧
      (register_realm s realm m t).1.leases = s.leases) := by
  constructor
  · intro h
    obtain ⟨m0, t0, hh⟩ := (hwf realm).1 h
    simp [register_realm, hh]
  · intro h
    have hnone := (hwf realm).2 h
    have hguard : ((hgetall s realm).max_requests).isSome = false := by
      rw [hnone]
      rfl
    have hreg2 : register_realm s realm m t =
        ({ realmHashes := setHash s.realmHashes realm ⟨some m, some t⟩,
           realmIndex := sadd s.realmIndex realm, leases := s.leases }, true) := by
      simp [register_realm, hguard]
    refine ⟨by rw [hreg2], ?_, ?_, by rw [hreg2]⟩
    · rw [hreg2]
      simp [hgetall, alookup_setHash_self]
    · rw [hreg2]
      simp [sadd, h]

/-- C3 witness: re-registering `A` on `storeA` is a no-op, and
registering `A` on the empty store inserts both fields. -/
theorem register_witness :
    register_realm storeA "A" 999 999 = (storeA, true) ∧
    hgetall (register_realm emptyStore "A" 100 300).1 "A" = ⟨some 100, some 300⟩ :=
  ⟨(register_is_noop_when_present_and_inserts_when_absent storeA "A" 999 999
      WF_storeA).1 (by simp [storeA]),
   ((register_is_noop_when_present_and_inserts_when_absent emptyStore "A" 100 300
      WF_emptyStore).2 (by simp [emptyStore])).2.1⟩

/-- C4: unregistering deletes the realm definition, removes the name
from the index, and deletes every lease whose key belongs to the realm,
all in the one call, which returns `True`; unregistering a name that was
never registered (no hash, not in the index, no leases) leaves the store
untouched and still returns `True`. -/
theorem unregister_cascades_and_unknown_name_is_noop
    (s : Store) (realm : String) :
    (unregister_realm s realm).2 = true ∧
    hgetall (unregister_realm s realm).1 realm = ⟨none, none⟩ ∧
    realm ∉ (unregister_realm s realm).1.realmIndex ∧
    (unregister_realm s realm).1.leases =
      s.leases.filter (fun l => ! leaseMatchesRealm realm l) ∧
    (∀ l ∈ (unregister_realm s realm).1.leases, l.realm ≠ realm) ∧
    ((alookup s.realmHashes realm = none ∧ realm ∉ s.realmIndex ∧
        ∀ l ∈ s.leases, l.realm ≠ realm) →
      unregister_realm s realm = (s, true)) := by
  refine ⟨rfl, ?_, ?_, rfl, ?_, ?_⟩
  · simp [unregister_realm, hgetall, alookup_delHash]
  · intro hmem
    simp only [unregister_realm, srem] at hmem
    have := (List.mem_filter.mp hmem).2
    simp at this
  · intro l hl
    simp only [unregister_realm] at hl
    have := (List.mem_filter.mp hl).2
    simp [leaseMatchesRealm] at this
    exact this
  · intro hp
    obtain ⟨hhash, hidx, hleases⟩ := hp
    have hd : delHash s.realmHashes realm = s.realmHashes := by
      apply filter_all_true
      intro p hpm
      simp [alookup_none_forall s.realmHashes realm hhash p hpm]
    have hs : srem s.realmIndex realm = s.realmIndex := by
      apply filter_all_true
      intro r hrm
      simp
      intro he
      subst he
      exact hidx hrm
    have hl : s.leases.filter (fun l => ! leaseMatchesRealm realm l) = s.leases := by
      apply filter_all_true
      intro l hlm
      simp [leaseMatchesRealm, hleases l hlm]
    simp [unregister_realm, hd, hs, hl]

/-- C4 witness: unregistering an unknown name on the empty store is a
no-op that returns `True`. -/
theorem unregister_witness :
    unregister_realm emptyStore "Z" = (emptyStore, true) :=
  (unregister_cascades_and_unknown_name_is_noop emptyStore "Z").2.2.2.2.2
    ⟨rfl, by simp [emptyStore], by simp [emptyStore]⟩

/-- C5: on a registered realm, update returns `True` and overwrites
exactly the recognized fields supplied with an exact-`int` value (as
`appliedField` states); everything else — other realms, the index, the
leases — is untouched, no error is raised for unknown or wrongly typed
fields, and when no supplied field qualifies the store is left entirely
unchanged. -/
theorem update_overwrites_exactly_supplied_integer_fields
    (s : Store) (realm : String) (kwargs : List (String × PyVal)) (m0 t0 : Int)
    (h : hgetall s realm = ⟨some m0, some t0⟩) :
    (update_realm s realm kwargs).2 = true ∧
    hgetall (update_realm s realm kwargs).1 realm =
      ⟨appliedField (alookup kwargs "max_requests") (some m0),
       appliedField (alookup kwargs "timespan") (some t0)⟩ ∧
    (∀ r, r ≠ realm → hgetall (update_realm s realm kwargs).1 r = hgetall s r) ∧
    (update_realm s realm kwargs).1.realmIndex = s.realmIndex ∧
    (update_realm s realm kwargs).1.leases = s.leases ∧
    ((∀ v, alookup kwargs "max_requests" = some v → v.isExactInt = false) →
      (∀ v, alookup kwargs "timespan" = some v → v.isExactInt = false) →
      update_realm s realm kwargs = (s, true)) := by
  have hfold : (update_realm s realm kwargs).1 =
      updateStep realm kwargs (updateStep realm kwargs s "max_requests") "timespan" := rfl
  refine ⟨rfl, ?_, ?_, ?_, ?_, ?_⟩
  · rw [hfold, updateStep_ts_hash, updateStep_max_hash, h]
  · intro r hr
    rw [hfold, updateStep_hash_ne _ _ _ _ _ hr, updateStep_hash_ne _ _ _ _ _ hr]
  · rw [hfold, updateStep_index, updateStep_index]
  · rw [hfold, updateStep_leases, updateStep_leases]
  · intro hmx hts
    have e1 := updateStep_noop realm kwargs s "max_requests" hmx
    have e2 := updateStep_noop realm kwargs (updateStep realm kwargs s "max_requests")
      "timespan" hts
    simp only [update_realm, List.foldl_cons, List.foldl_nil]
    rw [e2, e1]

/-- C5 witness: a mixed payload on `storeA` overwrites `max_requests`
with the supplied integer and ignores the rest. -/
theorem update_witness :
    hgetall (update_realm storeA "A" kwargsMixed).1 "A" =
      ⟨appliedField (alookup kwargsMixed "max_requests") (some 2),
       appliedField (alookup kwargsMixed "timespan") (some 5)⟩ :=
  (update_overwrites_exactly_supplied_integer_fields storeA "A" kwargsMixed 2 5 rfl).2.1

/-- C6: when some requested realm is missing from the registry index,
`_webdriver_get` fails at once with the realm-not-registered error
naming an unknown realm (the first one, in request order): the store is
untouched, no lease is written, the actuator is not invoked, and this
happens before any headroom check — the conclusion holds for every
store content, every `get_func` (even an invalid one) and both wait
modes. -/
theorem unknown_realm_fails_before_admission
    {α : Type} (cfg : Config) (uuidGen : Nat → String) (g : GetFunc α)
    (realms : List String) (wait : Bool) (stores : Nat → Store) (fuel : Nat)
    (r : String) (hr : r ∈ realms) (hur : r ∉ (stores 0).realmIndex) :
    ∃ r0, r0 ∈ realms ∧ r0 ∉ (stores 0).realmIndex ∧
      _webdriver_get cfg uuidGen g realms wait stores fuel =
        some (stores 0, .error (.respectfulError (realmNotRegisteredMsg r0)), 0, 0) := by
  obtain ⟨r0, h0, h0m, h0n⟩ :=
    firstUnregistered_of_mem (fetch_registered_realms (stores 0)) realms r hr hur
  exact ⟨r0, h0m, h0n, by simp [_webdriver_get, h0]⟩

/-- C6 witness: requesting unregistered realm `B` against `storeA`. -/
theorem unknown_realm_witness :
    ∃ r0, r0 ∈ ["B"] ∧ r0 ∉ (constStoresA 0).realmIndex ∧
      _webdriver_get default_config uuidgen0 gOK ["B"] false constStoresA 3 =
        some (constStoresA 0,
          .error (.respectfulError (realmNotRegisteredMsg r0)), 0, 0) :=
  unknown_realm_fails_before_admission default_config uuidgen0 gOK ["B"] false
    constStoresA 3 "B" (by simp) (by simp [constStoresA, storeA])

/-- C7: in the blocking wait loop, a rate-limited denial is the only
absorbed outcome — it is followed by one recorded one-second sleep and a
fresh attempt at the next observed store — while a grant returns the
actuator's result unchanged at that attempt, and any non-rate-limited
error propagates immediately from the single attempt that raised it. -/
theorem wait_mode_absorbs_only_rate_limited_denials
    {α : Type} (cfg : Config) (uuidGen : Nat → String) (g : GetFunc α)
    (realms : List String) (stores : Nat → Store) (fuel i slept : Nat) :
    (resIsRateLimited (_perform_webdriver_get cfg uuidGen g (stores i) realms).2.1 = true →
      waitLoop cfg uuidGen g realms stores (fuel + 1) i slept =
        waitLoop cfg uuidGen g realms stores fuel (i + 1) (slept + 1)) ∧
    (∀ v : α, (_perform_webdriver_get cfg uuidGen g (stores i) realms).2.1 = .ok v →
      waitLoop cfg uuidGen g realms stores (fuel + 1) i slept =
        some ((_perform_webdriver_get cfg uuidGen g (stores i) realms).1, .ok v,
          (_perform_webdriver_get cfg uuidGen g (stores i) realms).2.2, slept)) ∧
    (∀ e : PyErr, (_perform_webdriver_get cfg uuidGen g (stores i) realms).2.1 = .error e →
      e.isRateLimitedErr = false →
      waitLoop cfg uuidGen g realms stores (fuel + 1) i slept =
        some ((_perform_webdriver_get cfg uuidGen g (stores i) realms).1, .error e,
          (_perform_webdriver_get cfg uuidGen g (stores i) realms).2.2, slept)) := by
  refine ⟨fun h => ?_, fun v h => ?_, fun e h he => ?_⟩
  · simp only [waitLoop]
    rw [if_pos h]
  · have hnot : resIsRateLimited
        (_perform_webdriver_get cfg uuidGen g (stores i) realms).2.1 = false := by
      rw [h]
      rfl
    simp only [waitLoop]
    rw [if_neg (by simp [hnot]), h]
  · have hnot : resIsRateLimited
        (_perform_webdriver_get cfg uuidGen g (stores i) realms).2.1 = false := by
      rw [h]
      simpa [resIsRateLimited] using he
    simp only [waitLoop]
    rw [if_neg (by simp [hnot]), h]

/-- C7 witness: one denied attempt against `storeSat` recurses with one
more sleep; one granted attempt against `storeA` returns the actuator's
result. -/
theorem wait_mode_witness :
    (waitLoop default_config uuidgen0 gOK ["A"] constStoresSat 1 0 0 =
      waitLoop default_config uuidgen0 gOK ["A"] constStoresSat 0 1 1) ∧
    (waitLoop default_config uuidgen0 gOK ["A"] constStoresA 1 0 0 =
      some ((_perform_webdriver_get default_config uuidgen0 gOK (constStoresA 0) ["A"]).1,
        .ok 7,
        (_perform_webdriver_get default_config uuidgen0 gOK (constStoresA 0) ["A"]).2.2,
        0)) :=
  ⟨(wait_mode_absorbs_only_rate_limited_denials default_config uuidgen0 gOK ["A"]
      constStoresSat 0 0 0).1 rfl,
   (wait_mode_absorbs_only_rate_limited_denials default_config uuidgen0 gOK ["A"]
      constStoresA 0 0 0).2.1 7 rfl⟩

/-- C8 counterexample: reading `max_requests` of the unregistered realm
`A` on the empty store raises Python's `KeyError` from the hash-field
lookup, which is not the library's typed realm-not-registered error. -/
theorem read_unregistered_realm_raises_key_error_not_typed_error :
    realm_max_requests emptyStore "A" = .error (.keyError "max_requests") ∧
    PyErr.keyError "max_requests" ≠
      PyErr.respectfulError (realmNotRegisteredMsg "A") :=
  ⟨rfl, fun h => PyErr.noConfusion h⟩

/-- C8 (amended): for a realm name not present in the registry, reading
its definition fails — with a `KeyError` from the field lookup on the
empty hash, not with the library's typed realm-not-found error — while
for a registered realm both reads return the stored integers. -/
theorem read_realm_definition_key_error_when_unregistered
    (s : Store) (realm : String) (hwf : WF s) :
    (realm ∉ s.realmIndex →
      realm_max_requests s realm = .error (.keyError "max_requests") ∧
      realm_timespan s realm = .error (.keyError "timespan")) ∧
    (realm ∈ s.realmIndex →
      ∃ m t, hgetall s realm = ⟨some m, some t⟩ ∧
        realm_max_requests s realm = .ok m ∧ realm_timespan s realm = .ok t) := by
  constructor
  · intro h
    have hnone := (hwf realm).2 h
    constructor
    · simp [realm_max_requests, _fetch_realm_info, hnone]
    · simp [realm_timespan, _fetch_realm_info, hnone]
  · intro h
    obtain ⟨m, t, hh⟩ := (hwf realm).1 h
    exact ⟨m, t, hh,
      by simp [realm_max_requests, _fetch_realm_info, hh],
      by simp [realm_timespan, _fetch_realm_info, hh]⟩

/-- C8 witness: unregistered `B` yields `KeyError`s, registered `A`
yields the stored integers, on `storeA`. -/
theorem read_realm_definition_witness :
    (realm_max_requests storeA "B" = .error (.keyError "max_requests") ∧
      realm_timespan storeA "B" = .error (.keyError "timespan")) ∧
    (∃ m t, hgetall storeA "A" = ⟨some m, some t⟩ ∧
      realm_max_requests storeA "A" = .ok m ∧ realm_timespan storeA "A" = .ok t) :=
  ⟨(read_realm_definition_key_error_when_unregistered storeA "B" WF_storeA).1
      (by simp [storeA]),
   (read_realm_definition_key_error_when_unregistered storeA "A" WF_storeA).2
      (by simp [storeA])⟩

/-- C9 (code bug): on a well-formed configuration file holding a full
`redis` section and a valid `safety_threshold`, `_load_config` falls off
the end of its body and returns Python `None` instead of the validated
configuration — only the missing-file path returns a configuration (the
defaults).  `__init__` then subscripts the `None`. -/
theorem load_config_discards_valid_file :
    _load_config (some ⟨some (.int 0),
        some ⟨some (.str "localhost"), some (.int 6379), some (.int 0)⟩⟩) =
      .returned none ∧
    _load_config none = .returned (some default_config) :=
  ⟨rfl, rfl⟩

/-- C10: updating a registered realm with boolean values for the
recognized fields leaves the store entirely unchanged, because the
`type(x) == int` check accepts exactly the `int` type and booleans —
although an `int` subtype in Python — are a distinct type. -/
theorem update_ignores_boolean_values
    (s : Store) (realm : String) (kwargs : List (String × PyVal)) (m0 t0 : Int)
    (h : hgetall s realm = ⟨some m0, some t0⟩)
    (hmx : ∀ v, alookup kwargs "max_requests" = some v → ∃ b, v = .bool b)
    (hts : ∀ v, alookup kwargs "timespan" = some v → ∃ b, v = .bool b) :
    update_realm s realm kwargs = (s, true) ∧
    (∀ b : Bool, PyVal.isExactInt (.bool b) = false) ∧
    (∀ n : Int, PyVal.isExactInt (.int n) = true) := by
  refine ⟨?_, fun b => rfl, fun n => rfl⟩
  have hmx' : ∀ v, alookup kwargs "max_requests" = some v → v.isExactInt = false := by
    intro v hv
    obtain ⟨b, hb⟩ := hmx v hv
    subst hb
    rfl
  have hts' : ∀ v, alookup kwargs "timespan" = some v → v.isExactInt = false := by
    intro v hv
    obtain ⟨b, hb⟩ := hts v hv
    subst hb
    rfl
  have e1 := updateStep_noop realm kwargs s "max_requests" hmx'
  have e2 := updateStep_noop realm kwargs (updateStep realm kwargs s "max_requests")
    "timespan" hts'
  simp only [update_realm, List.foldl_cons, List.foldl_nil]
  rw [e2, e1]

/-- C10 witness: a boolean `max_requests` on `storeA` changes nothing. -/
theorem update_ignores_boolean_witness :
    update_realm storeA "A" kwargsBool = (storeA, true) :=
  (update_ignores_boolean_values storeA "A" kwargsBool 2 5 rfl
    (by
      intro v hv
      simp [kwargsBool, alookup] at hv
      exact ⟨true, hv.symm⟩)
    (by
      intro v hv
      simp [kwargsBool, alookup] at hv)).1

end SeleniumRespectful
